import Mathlib

/-!
Verification of the adaptive assessment engine of the edu-tutor repository
(`AIQuizGenerator` in `edu.py`).

The Python question records are mutable dictionaries that may be shared
between the canonical bank and generated quizzes, so the embedding is
store-based: a `Heap` is a list of `Question` records and the bank maps
subject and tier names to lists of addresses (indices into the heap).
Quiz generation returns addresses together with the possibly updated heap,
which makes aliasing effects (metadata stamping through shared references)
observable.  Python's global `random` calls are modelled by explicit
oracle parameters: `random.sample` and `random.shuffle` receive a `perm`
list of naturals from which a permutation of positions is derived, and
`random.choice` receives a stream of naturals interpreted modulo the
length of the list being chosen from; every possible random outcome is
realised by some oracle value, so universally quantified theorems cover
every run of the program.
-/

namespace EduTutor

/-- One question record of the bank (`edu.py`).  The five authored fields
are always present; the remaining fields model dictionary keys that the
engine may stamp onto a record later (`none` = key absent). -/
structure Question where
  question : String
  options : List String
  correct : Int
  explanation : String
  topic : String
  generated_topic : Option String := none
  difficulty : Option String := none
  subject : Option String := none
  adaptive : Option Bool := none
  based_on_performance : Option ℚ := none
deriving Repr, DecidableEq, Inhabited

/-- Addresses of question records: indices into the heap. -/
abbrev Addr := Nat

/-- The store of question records. -/
abbrev Heap := List Question

/-- One feedback record produced by `evaluate_answers`. -/
structure FeedbackItem where
  question_id : Nat
  question : String
  your_answer : String
  correct_answer : String
  is_correct : Bool
  explanation : String
  topic : String
deriving Repr, DecidableEq

/-- The result dictionary of `evaluate_answers`.  The incomplete branch
returns a dictionary without a `recommendations` key, hence the `Option`. -/
structure EvaluationResult where
  score : ℚ
  percentage : ℚ
  total_questions : Nat
  correct_answers : Nat
  performance_level : String
  feedback : List FeedbackItem
  recommendations : Option (List String)
deriving Repr, DecidableEq

/-- A performance-history entry as consumed by `generate_adaptive_quiz`:
only its `percentage` field is read. -/
structure Attempt where
  percentage : ℚ
deriving Repr, DecidableEq

/-- The 29 question records authored in `AIQuizGenerator.__init__`,
in source order.  Address `n` is the `n`-th record. -/
def init_heap : Heap := [
  -- mathematics / easy (addresses 0-3)
  { question := "What is 15% of 200?", options := ["20", "25", "30", "35"],
    correct := 2, explanation := "15% of 200 = 0.15 × 200 = 30", topic := "Percentages" },
  { question := "What is the area of a rectangle with length 8 and width 5?",
    options := ["40", "13", "26", "35"], correct := 0,
    explanation := "Area = length × width = 8 × 5 = 40", topic := "Basic Geometry" },
  { question := "Solve: 3x + 7 = 16", options := ["x = 2", "x = 3", "x = 4", "x = 5"],
    correct := 1, explanation := "3x = 16 - 7 = 9, so x = 3", topic := "Basic Algebra" },
  { question := "What is 45 ÷ 9?", options := ["4", "5", "6", "7"],
    correct := 1, explanation := "45 ÷ 9 = 5", topic := "Basic Division" },
  -- mathematics / medium (addresses 4-6)
  { question := "What is the derivative of x² + 3x?", options := ["2x + 3", "x² + 3", "2x", "3x"],
    correct := 0, explanation := "Using power rule: d/dx(x²) = 2x and d/dx(3x) = 3", topic := "Calculus" },
  { question := "Find the limit of (x² - 4)/(x - 2) as x approaches 2",
    options := ["2", "4", "0", "Undefined"], correct := 1,
    explanation := "Factor: (x+2)(x-2)/(x-2) = x+2, limit = 4", topic := "Limits" },
  { question := "What is the slope of the line y = 3x + 2?", options := ["2", "3", "5", "1"],
    correct := 1, explanation := "In y = mx + b form, m is the slope, so slope = 3", topic := "Linear Equations" },
  -- mathematics / hard (addresses 7-8)
  { question := "Solve the differential equation dy/dx = 2y",
    options := ["y = Ce^(2x)", "y = C + 2x", "y = 2Ce^x", "y = Ce^x"], correct := 0,
    explanation := "Separable equation: dy/y = 2dx, ln|y| = 2x + C", topic := "Differential Equations" },
  { question := "Find the integral of sin(x)cos(x)dx",
    options := ["sin²(x)/2 + C", "-cos²(x)/2 + C", "sin(x)cos(x) + C", "Both A and B"], correct := 3,
    explanation := "Using substitution or identity, both forms are correct", topic := "Integration" },
  -- computer_science / easy (addresses 9-11)
  { question := "What does CPU stand for?",
    options := ["Central Processing Unit", "Computer Processing Unit", "Central Program Unit", "Computer Program Unit"],
    correct := 0, explanation := "CPU stands for Central Processing Unit", topic := "Computer Basics" },
  { question := "Which of these is a programming language?", options := ["HTML", "Python", "CSS", "HTTP"],
    correct := 1, explanation := "Python is a general-purpose programming language", topic := "Programming Languages" },
  { question := "What is binary code made of?", options := ["0s and 1s", "Letters", "Numbers 1-9", "Symbols"],
    correct := 0, explanation := "Binary code uses only 0s and 1s", topic := "Computer Basics" },
  -- computer_science / medium (addresses 12-14)
  { question := "What is the time complexity of binary search?",
    options := ["O(n)", "O(log n)", "O(n²)", "O(1)"], correct := 1,
    explanation := "Binary search halves the search space each iteration", topic := "Algorithms" },
  { question := "Which data structure uses LIFO principle?",
    options := ["Queue", "Stack", "Array", "Linked List"], correct := 1,
    explanation := "Stack follows Last In, First Out (LIFO) principle", topic := "Data Structures" },
  { question := "What does SQL stand for?",
    options := ["Structured Query Language", "Simple Query Language", "Standard Query Language", "System Query Language"],
    correct := 0, explanation := "SQL stands for Structured Query Language", topic := "Databases" },
  -- computer_science / hard (addresses 15-16)
  { question := "What is the worst-case time complexity of QuickSort?",
    options := ["O(n log n)", "O(n²)", "O(n)", "O(log n)"], correct := 1,
    explanation := "QuickSort worst case is O(n²) when pivot is always smallest/largest", topic := "Advanced Algorithms" },
  { question := "Which design pattern ensures a class has only one instance?",
    options := ["Factory", "Observer", "Singleton", "Strategy"], correct := 2,
    explanation := "Singleton pattern ensures only one instance of a class exists", topic := "Design Patterns" },
  -- physics / easy (addresses 17-18)
  { question := "What is the unit of force in SI system?",
    options := ["Joule", "Watt", "Newton", "Pascal"], correct := 2,
    explanation := "The SI unit of force is Newton (N)", topic := "Units and Measurements" },
  { question := "What is the speed of light in vacuum?",
    options := ["3 × 10⁸ m/s", "3 × 10⁶ m/s", "3 × 10¹⁰ m/s", "3 × 10⁹ m/s"], correct := 0,
    explanation := "Speed of light in vacuum is approximately 3 × 10⁸ m/s", topic := "Constants" },
  -- physics / medium (addresses 19-20)
  { question := "What is the acceleration due to gravity on Earth?",
    options := ["9.8 m/s²", "10 m/s²", "9.81 m/s²", "9.0 m/s²"], correct := 2,
    explanation := "Standard acceleration due to gravity is approximately 9.81 m/s²", topic := "Mechanics" },
  { question := "What is Newton\x27s second law of motion?",
    options := ["F = ma", "E = mc²", "P = mv", "W = Fd"], correct := 0,
    explanation := "Newton\x27s second law states that Force equals mass times acceleration", topic := "Classical Mechanics" },
  -- physics / hard (addresses 21-22)
  { question := "What is Schrödinger\x27s equation used for?",
    options := ["Classical mechanics", "Quantum mechanics", "Thermodynamics", "Electromagnetism"], correct := 1,
    explanation := "Schrödinger\x27s equation describes quantum mechanical systems", topic := "Quantum Physics" },
  { question := "What is the uncertainty principle?",
    options := ["ΔxΔp ≥ ħ/2", "E = hf", "λ = h/p", "F = qE"], correct := 0,
    explanation := "Heisenberg uncertainty principle: ΔxΔp ≥ ħ/2", topic := "Quantum Physics" },
  -- literature / easy (addresses 23-24)
  { question := "Who wrote \x27Romeo and Juliet\x27?",
    options := ["Charles Dickens", "William Shakespeare", "Jane Austen", "Mark Twain"], correct := 1,
    explanation := "Romeo and Juliet was written by William Shakespeare", topic := "Classic Literature" },
  { question := "What is a haiku?",
    options := ["A type of novel", "A Japanese poem", "A play", "An essay"], correct := 1,
    explanation := "A haiku is a traditional Japanese poem with 17 syllables", topic := "Poetry" },
  -- literature / medium (addresses 25-26)
  { question := "What literary device is \x27The wind whispered through the trees\x27?",
    options := ["Metaphor", "Simile", "Personification", "Alliteration"], correct := 2,
    explanation := "Personification gives human characteristics to non-human things", topic := "Literary Devices" },
  { question := "Who wrote \x271984\x27?",
    options := ["George Orwell", "Aldous Huxley", "Ray Bradbury", "H.G. Wells"], correct := 0,
    explanation := "1984 was written by George Orwell", topic := "Modern Literature" },
  -- literature / hard (addresses 27-28)
  { question := "In which novel does the character Jay Gatsby appear?",
    options := ["To Kill a Mockingbird", "The Great Gatsby", "1984", "Pride and Prejudice"], correct := 1,
    explanation := "Jay Gatsby is the protagonist of F. Scott Fitzgerald\x27s \x27The Great Gatsby\x27", topic := "American Literature" },
  { question := "What is stream of consciousness in literature?",
    options := ["A poetic form", "A narrative technique", "A literary movement", "A type of meter"], correct := 1,
    explanation := "Stream of consciousness is a narrative technique that presents thoughts as they occur", topic := "Literary Techniques" }
]

/-- An insertion-ordered string-keyed dictionary, as Python dicts are. -/
abbrev PyDict (α : Type) := List (String × α)

/-- Lookup `d[k]` on an insertion-ordered dictionary; `none` when the key
is absent (Python `k in d` is `(dictGet d k).isSome`). -/
def dictGet {α : Type} (d : PyDict α) (k : String) : Option α :=
  (d.find? (fun p => p.1 == k)).map (fun p => p.2)

/-- The bank `self.question_banks`: subject → tier → list of question addresses,
mirroring the nested dictionary literal of `AIQuizGenerator.__init__`. -/
def question_banks : PyDict (PyDict (List Addr)) := [
  ("mathematics", [("easy", [0, 1, 2, 3]), ("medium", [4, 5, 6]), ("hard", [7, 8])]),
  ("computer_science", [("easy", [9, 10, 11]), ("medium", [12, 13, 14]), ("hard", [15, 16])]),
  ("physics", [("easy", [17, 18]), ("medium", [19, 20]), ("hard", [21, 22])]),
  ("literature", [("easy", [23, 24]), ("medium", [25, 26]), ("hard", [27, 28])])
]

/-- The nested access `self.question_banks[s][d]` as a partial lookup: `some` exactly when
`s in self.question_banks and d in self.question_banks[s]`. -/
def bankLookup (s d : String) : Option (List Addr) :=
  (dictGet question_banks s).bind (fun tiers => dictGet tiers d)

/-- The tier mapping `difficulty_map.get(difficulty_level, "medium")` with
`difficulty_map = {1: "easy", 2: "medium", 3: "hard"}`. -/
def difficultyOf (difficulty_level : Int) : String :=
  if difficulty_level = 1 then "easy"
  else if difficulty_level = 2 then "medium"
  else if difficulty_level = 3 then "hard"
  else "medium"

/-- Python's `needle in hay` substring test on strings. -/
def strContains (hay needle : String) : Bool :=
  decide (List.IsInfix needle.data hay.data)

/-- Python's `str.lower()`, character by character (defined over the
character list so that concrete calls evaluate in proofs). -/
def pyLower (s : String) : String :=
  ⟨s.data.map Char.toLower⟩

/-- The method `AIQuizGenerator._determine_subject_from_topic`. -/
def determine_subject_from_topic (topic : String) : String :=
  let topic_lower := pyLower topic
  let math_keywords := ["math", "algebra", "calculus", "geometry", "statistics", "equation", "derivative", "integral"]
  let cs_keywords := ["programming", "algorithm", "data structure", "computer", "coding", "software", "python", "java"]
  let physics_keywords := ["physics", "force", "energy", "momentum", "gravity", "quantum", "mechanics"]
  let literature_keywords := ["literature", "novel", "poem", "shakespeare", "author", "writing", "story"]
  if math_keywords.any (fun k => strContains topic_lower k) then "mathematics"
  else if cs_keywords.any (fun k => strContains topic_lower k) then "computer_science"
  else if physics_keywords.any (fun k => strContains topic_lower k) then "physics"
  else if literature_keywords.any (fun k => strContains topic_lower k) then "literature"
  else "mathematics"

/-- The key normalization `subject.lower().replace(" ", "_")`: every space becomes an
underscore (the pattern is a single character, so substring replacement
coincides with character replacement). -/
def normalizeKey (subject : String) : String :=
  ⟨(pyLower subject).data.map (fun c => if c = ' ' then '_' else c)⟩

/-- The first-occurrence deduplication of a list (`List.dedup` keeps last
occurrences, so it is applied to the reversed list). -/
def firstDedup {α : Type} [DecidableEq α] (l : List α) : List α :=
  (l.reverse.dedup).reverse

/-- Permutation-of-positions oracle: from an arbitrary list of naturals,
a duplicate-free enumeration of `0, …, n-1` (any ordering is realised by
a suitable `perm`, namely that ordering itself).  This models the
randomness of `random.sample` and `random.shuffle`. -/
def samplePerm (n : Nat) (perm : List Nat) : List Nat :=
  (firstDedup (perm ++ List.range n)).filter (fun i => i < n)

/-- Python `random.sample(pool, k)`: `k` distinct positions of the pool, in an
oracle-chosen order; raises `ValueError` when `k` is negative or exceeds
the population size. -/
def random_sample {α : Type} (pool : List α) (k : Int) (perm : List Nat) : Except String (List α) :=
  if k < 0 ∨ (pool.length : Int) < k then
    Except.error "ValueError: Sample larger than population or is negative"
  else
    Except.ok (((samplePerm pool.length perm).take k.toNat).filterMap (fun i => pool.get? i))

/-- Python `random.shuffle(xs)` (in-place in the source): an oracle-chosen
rearrangement of the list. -/
def random_shuffle {α : Type} (xs : List α) (perm : List Nat) : List α :=
  (samplePerm xs.length perm).filterMap (fun i => xs.get? i)

/-- The `available_questions` pool of `generate_quiz`: the bank's list for
the resolved subject and tier (falling back to mathematics), extended with
the same subject's other tiers when shorter than the request.  The
extension loop requires `subject_key in self.question_banks`. -/
def availablePool (subject_key difficulty : String) (num_questions : Int) : List Addr :=
  let available0 :=
    match bankLookup subject_key difficulty with
    | some qs => qs
    | none => (bankLookup "mathematics" difficulty).getD []
  if (available0.length : Int) < num_questions then
    ["easy", "medium", "hard"].foldl (fun acc other_diff =>
      if other_diff ≠ difficulty ∧ (dictGet question_banks subject_key).isSome then
        match bankLookup subject_key other_diff with
        | some qs => acc ++ qs
        | none => acc
      else acc) available0
  else available0

/-- The stamping loop of `generate_quiz`: writes `generated_topic`,
`difficulty` and `subject` through each selected reference, updating the
store in place. -/
def stampQuiz (heap : Heap) (selected : List Addr) (topic difficulty subject : String) : Heap :=
  selected.foldl (fun h a =>
    match h.get? a with
    | some q => h.set a { q with generated_topic := some topic,
                                 difficulty := some difficulty, subject := some subject }
    | none => h) heap

/-- The subject resolution step of `generate_quiz`:
`if subject == "general": subject = self._determine_subject_from_topic(topic)`. -/
def resolveSubject (topic subject : String) : String :=
  if subject == "general" then determine_subject_from_topic topic else subject

/-- The method `AIQuizGenerator.generate_quiz`.  Returns the selected addresses
together with the updated heap; `Except.error` models a raised exception. -/
def generate_quiz (heap : Heap) (topic : String) (difficulty_level : Int)
    (subject : String) (num_questions : Int) (perm : List Nat) :
    Except String (List Addr × Heap) :=
  let difficulty := difficultyOf difficulty_level
  let subject1 := resolveSubject topic subject
  let subject_key := normalizeKey subject1
  let available_questions := availablePool subject_key difficulty num_questions
  match random_sample available_questions
      (min num_questions (available_questions.length : Int)) perm with
  | Except.error e => Except.error e
  | Except.ok selected_questions =>
      Except.ok (selected_questions,
        stampQuiz heap selected_questions topic difficulty subject1)

/-- The per-tier question count of `generate_diagnostic_quiz`:
`questions_per_difficulty + (1 if i < remaining_questions else 0)` with
Python floor division and modulus. -/
def tierAlloc (num_questions : Int) (i : Nat) : Int :=
  num_questions.fdiv 3 + (if (i : Int) < num_questions.fmod 3 then 1 else 0)

/-- One loop body iteration of `generate_diagnostic_quiz`: choose a
subject at random; if it has the tier and the pool is non-empty, choose a
question at random, copy it (a fresh record at the end of the heap),
stamp `difficulty` and `subject` on the copy and append it.  The state is
(accumulated addresses, heap, index of the next random draw). -/
def diagUnit (pickS pickQ : Nat → Nat) (difficulty : String)
    (st : List Addr × Heap × Nat) : List Addr × Heap × Nat :=
  let (acc, h, c) := st
  let subjects := question_banks.map (fun p => p.1)
  let subject := subjects.getD (pickS c % subjects.length) ""
  match dictGet question_banks subject with
  | none => (acc, h, c + 1)
  | some tiers =>
    match dictGet tiers difficulty with
    | none => (acc, h, c + 1)
    | some questions =>
      if questions.isEmpty then (acc, h, c + 1)
      else
        let a := questions.getD (pickQ c % questions.length) 0
        match h.get? a with
        | none => (acc, h, c + 1)
        | some q =>
          (acc ++ [h.length],
           h ++ [{ q with difficulty := some difficulty, subject := some subject }],
           c + 1)

/-- The method `AIQuizGenerator.generate_diagnostic_quiz`.  Here `pickS`/`pickQ` are the
`random.choice` oracles and `perm` the `random.shuffle` oracle. -/
def generate_diagnostic_quiz (heap : Heap) (num_questions : Int)
    (pickS pickQ : Nat → Nat) (perm : List Nat) : List Addr × Heap :=
  let difficulties := ["easy", "medium", "hard"]
  let final := (difficulties.enum).foldl (fun st p =>
      let count := tierAlloc num_questions p.1
      (List.range count.toNat).foldl (fun st2 _ => diagUnit pickS pickQ p.2 st2) st)
    (([] : List Addr), heap, 0)
  (random_shuffle final.1 perm, final.2.1)

/-- Python list indexing `xs[i]` (negative indices address from the end;
anything else raises `IndexError`). -/
def pyIndex (xs : List String) (i : Int) : Except String String :=
  if 0 ≤ i ∧ i < (xs.length : Int) then Except.ok (xs.getD i.toNat "")
  else if -(xs.length : Int) ≤ i ∧ i < 0 then
    Except.ok (xs.getD ((xs.length : Int) + i).toNat "")
  else Except.error "IndexError: list index out of range"

/-- The loop body of `evaluate_answers` for position `i`, question `q`
and answer `a`: the feedback record, or the `IndexError` raised when the
question's own correct index is out of range. -/
def evalPair (i : Nat) (q : Question) (a : Int) : Except String FeedbackItem :=
  let is_correct := a == q.correct
  let your_answer :=
    if 0 ≤ a ∧ a < (q.options.length : Int) then q.options.getD a.toNat ""
    else "No answer"
  match pyIndex q.options q.correct with
  | Except.error e => Except.error e
  | Except.ok correct_answer =>
      Except.ok { question_id := i, question := q.question,
                  your_answer := your_answer, correct_answer := correct_answer,
                  is_correct := is_correct, explanation := q.explanation,
                  topic := q.topic }

/-- The update `weak_topics[topic] = weak_topics.get(topic, 0) + 1` on an
insertion-ordered dictionary. -/
def bumpTopic (m : List (String × Nat)) (t : String) : List (String × Nat) :=
  if (m.find? (fun p => p.1 == t)).isSome then
    m.map (fun p => if p.1 == t then (p.1, p.2 + 1) else p)
  else m ++ [(t, 1)]

/-- The `weak_topics` dictionary of `_generate_recommendations`:
incorrect counts per topic, keyed in first-encounter order. -/
def weak_topics (feedback : List FeedbackItem) : List (String × Nat) :=
  feedback.foldl (fun m item => if item.is_correct then m else bumpTopic m item.topic) []

/-- The topic-specific recommendation line (an f-string in the source). -/
def attnLine (t : String) : String :=
  "Pay special attention to " ++ t ++ " - this seems to be a challenging area."

/-- The tier-based generic advice of `_generate_recommendations`
(the first if-chain). -/
def baseRecs (percentage : ℚ) : List String :=
  if percentage ≥ 90 then
    ["Excellent work! Consider advancing to more challenging topics.",
     "You might be ready for advanced level courses."]
  else if percentage ≥ 70 then
    ["Good performance! Review the questions you missed.",
     "Focus on strengthening weak areas for even better results."]
  else
    ["Consider reviewing fundamental concepts.",
     "Practice more problems in areas where you struggled.",
     "Don\x27t hesitate to seek additional help or resources."]

/-- One step of the running-maximum loop of `_generate_recommendations`:
only a strictly greater error count replaces the current champion. -/
def bestStep (acc p : String × Nat) : String × Nat :=
  if p.2 > acc.2 then p else acc

/-- The method `AIQuizGenerator._generate_recommendations`. -/
def generate_recommendations (percentage : ℚ) (feedback : List FeedbackItem) : List String :=
  let recommendations := baseRecs percentage
  let wt := weak_topics feedback
  if wt.isEmpty then recommendations
  else
    let best := wt.foldl bestStep ("", 0)
    if best.1 ≠ "" then recommendations ++ [attnLine best.1]
    else recommendations

/-- The `correct_count` accumulated by the loop of `evaluate_answers`:
the number of positionally paired answers equal to their question's
correct index. -/
def correct_count (questions : List Question) (answers : List Int) : Nat :=
  ((questions.zip answers).filter (fun p => p.2 == p.1.correct)).length

/-- The percentage `(correct_count / len(questions)) * 100`. -/
def percentageOf (questions : List Question) (answers : List Int) : ℚ :=
  ((correct_count questions answers : ℚ) / (questions.length : ℚ)) * 100

/-- The `performance_level` if-chain of `evaluate_answers`. -/
def performanceLevelOf (percentage : ℚ) : String :=
  if percentage ≥ 90 then "Excellent"
  else if percentage ≥ 80 then "Very Good"
  else if percentage ≥ 70 then "Good"
  else if percentage ≥ 60 then "Fair"
  else "Needs Improvement"

/-- The method `AIQuizGenerator.evaluate_answers`. -/
def evaluate_answers (questions : List Question) (answers : List Int) :
    Except String EvaluationResult :=
  if questions.isEmpty ∨ answers.isEmpty then
    Except.ok { score := 0, percentage := 0, total_questions := questions.length,
                correct_answers := 0, performance_level := "Incomplete",
                feedback := [], recommendations := none }
  else
    match ((questions.zip answers).enum).mapM (fun p => evalPair p.1 p.2.1 p.2.2) with
    | Except.error e => Except.error e
    | Except.ok feedback =>
      let percentage := percentageOf questions answers
      Except.ok { score := percentage, percentage := percentage,
                  total_questions := questions.length,
                  correct_answers := correct_count questions answers,
                  performance_level := performanceLevelOf percentage,
                  feedback := feedback,
                  recommendations := some (generate_recommendations percentage feedback) }

/-- The difficulty-level computation of `generate_adaptive_quiz` for a
non-empty history: mean of the last five percentages, thresholded. -/
def adaptiveLevel (user_history : List Attempt) : Int :=
  let recent_scores := (user_history.drop (user_history.length - 5)).map (fun a => a.percentage)
  let avg_recent_score : ℚ := recent_scores.sum / (recent_scores.length : ℚ)
  if avg_recent_score ≥ 85 then 3
  else if avg_recent_score ≥ 65 then 2
  else 1

/-- The mean used by `generate_adaptive_quiz` (`avg_recent_score`). -/
def recentAvg (user_history : List Attempt) : ℚ :=
  let recent_scores := (user_history.drop (user_history.length - 5)).map (fun a => a.percentage)
  recent_scores.sum / (recent_scores.length : ℚ)

/-- The stamping loop of `generate_adaptive_quiz`: writes `adaptive` and
`based_on_performance` through each returned reference. -/
def stampAdaptive (heap : Heap) (quiz : List Addr) (avg : ℚ) : Heap :=
  quiz.foldl (fun h a =>
    match h.get? a with
    | some q => h.set a { q with adaptive := some true, based_on_performance := some avg }
    | none => h) heap

/-- The method `AIQuizGenerator.generate_adaptive_quiz`. -/
def generate_adaptive_quiz (heap : Heap) (user_history : List Attempt)
    (subject : String) (num_questions : Int) (perm : List Nat) :
    Except String (List Addr × Heap) :=
  if user_history.isEmpty then
    generate_quiz heap "General Assessment" 2 subject num_questions perm
  else
    let avg_recent_score := recentAvg user_history
    let difficulty_level := adaptiveLevel user_history
    match generate_quiz heap ("Adaptive " ++ subject ++ " Quiz") difficulty_level
        subject num_questions perm with
    | Except.error e => Except.error e
    | Except.ok (quiz, h) =>
        Except.ok (quiz, stampAdaptive h quiz avg_recent_score)

/-!  ## Sampling infrastructure lemmas -/

theorem mem_firstDedup {α : Type} [DecidableEq α] {l : List α} {a : α} :
    a ∈ firstDedup l ↔ a ∈ l := by
  simp [firstDedup]

theorem firstDedup_nodup {α : Type} [DecidableEq α] (l : List α) :
    (firstDedup l).Nodup := by
  simp [firstDedup, List.nodup_reverse, List.nodup_dedup]

theorem samplePerm_nodup (n : Nat) (perm : List Nat) : (samplePerm n perm).Nodup :=
  (firstDedup_nodup _).filter _

theorem mem_samplePerm {n : Nat} {perm : List Nat} {i : Nat} :
    i ∈ samplePerm n perm ↔ i < n := by
  simp only [samplePerm, List.mem_filter, mem_firstDedup, List.mem_append,
    List.mem_range, decide_eq_true_eq]
  constructor
  · exact fun h => h.2
  · exact fun h => ⟨Or.inr h, h⟩

theorem samplePerm_length (n : Nat) (perm : List Nat) :
    (samplePerm n perm).length = n := by
  have hperm : (samplePerm n perm).Perm (List.range n) := by
    rw [List.perm_ext_iff_of_nodup (samplePerm_nodup n perm) (List.nodup_range n)]
    intro a
    rw [mem_samplePerm, List.mem_range]
  simpa using hperm.length_eq

theorem filterMap_get?_length {α : Type} (xs : List α) (idxs : List Nat)
    (h : ∀ i ∈ idxs, i < xs.length) :
    (idxs.filterMap (fun i => xs.get? i)).length = idxs.length := by
  induction idxs with
  | nil => rfl
  | cons i rest ih =>
      have hi : i < xs.length := h i (List.mem_cons_self i rest)
      simp only [List.filterMap_cons, List.get?_eq_get hi, List.length_cons]
      rw [ih (fun j hj => h j (List.mem_cons_of_mem i hj))]

theorem filterMap_get?_mem {α : Type} {xs : List α} {idxs : List Nat} {b : α}
    (h : b ∈ idxs.filterMap (fun i => xs.get? i)) : b ∈ xs := by
  obtain ⟨i, _, hb⟩ := List.mem_filterMap.mp h
  exact List.get?_mem hb

theorem filterMap_get?_nodup {α : Type} (xs : List α) (idxs : List Nat)
    (hidx : idxs.Nodup) (hlt : ∀ i ∈ idxs, i < xs.length) (hxs : xs.Nodup) :
    (idxs.filterMap (fun i => xs.get? i)).Nodup := by
  induction idxs with
  | nil => exact List.nodup_nil
  | cons i rest ih =>
      have hi : i < xs.length := hlt i (List.mem_cons_self i rest)
      rw [List.nodup_cons] at hidx
      obtain ⟨hnot, hrest⟩ := hidx
      simp only [List.filterMap_cons, List.get?_eq_get hi]
      refine List.Nodup.cons ?_ (ih hrest (fun j hj => hlt j (List.mem_cons_of_mem i hj)))
      intro hmem
      obtain ⟨j, hj, hbj⟩ := List.mem_filterMap.mp hmem
      have hjlt : j < xs.length := hlt j (List.mem_cons_of_mem i hj)
      rw [List.get?_eq_get hjlt] at hbj
      have hji : (⟨j, hjlt⟩ : Fin xs.length) = ⟨i, hi⟩ :=
        (List.Nodup.get_inj_iff hxs).mp (Option.some.inj hbj)
      have hj' : j = i := by simpa using hji
      exact hnot (hj' ▸ hj)

theorem random_sample_ok {α : Type} (pool : List α) (k : Int) (perm : List Nat)
    (h0 : 0 ≤ k) (hk : k ≤ (pool.length : Int)) :
    ∃ out, random_sample pool k perm = Except.ok out := by
  rw [random_sample, if_neg (by omega : ¬(k < 0 ∨ (pool.length : Int) < k))]
  exact ⟨_, rfl⟩

theorem random_sample_spec {α : Type} {pool : List α} {k : Int} {perm : List Nat}
    {out : List α} (h : random_sample pool k perm = Except.ok out) :
    (out.length : Int) = max k 0 ∧ (∀ b ∈ out, b ∈ pool) ∧
      (pool.Nodup → out.Nodup) ∧ 0 ≤ k ∧ k ≤ (pool.length : Int) := by
  rw [random_sample] at h
  split at h
  · exact absurd h (by simp)
  · rename_i hcond
    push_neg at hcond
    obtain ⟨hk0, hklen⟩ := hcond
    obtain rfl : (((samplePerm pool.length perm).take k.toNat).filterMap
        (fun i => pool.get? i)) = out := by
      exact Except.ok.inj h
    have hsub : ((samplePerm pool.length perm).take k.toNat).Sublist
        (samplePerm pool.length perm) := List.take_sublist _ _
    have hlt : ∀ i ∈ (samplePerm pool.length perm).take k.toNat, i < pool.length :=
      fun i hi => mem_samplePerm.mp (hsub.mem hi)
    refine ⟨?_, ?_, ?_, hk0, hklen⟩
    · rw [filterMap_get?_length _ _ hlt, List.length_take, samplePerm_length]
      have : k.toNat ≤ pool.length := by omega
      simp only [min_eq_left this]
      omega
    · exact fun b hb => filterMap_get?_mem hb
    · exact fun hnd => filterMap_get?_nodup _ _
        (hsub.nodup (samplePerm_nodup _ _)) hlt hnd

theorem random_shuffle_length {α : Type} (xs : List α) (perm : List Nat) :
    (random_shuffle xs perm).length = xs.length := by
  rw [random_shuffle, filterMap_get?_length, samplePerm_length]
  exact fun i hi => mem_samplePerm.mp hi

theorem random_shuffle_nodup {α : Type} {xs : List α} (perm : List Nat)
    (h : xs.Nodup) : (random_shuffle xs perm).Nodup :=
  filterMap_get?_nodup _ _ (samplePerm_nodup _ _)
    (fun i hi => mem_samplePerm.mp hi) h

/-!  ## `generate_quiz` lemmas -/

theorem difficultyOf_cases (lvl : Int) :
    difficultyOf lvl = "easy" ∨ difficultyOf lvl = "medium" ∨ difficultyOf lvl = "hard" := by
  unfold difficultyOf
  by_cases h1 : lvl = 1 <;> by_cases h2 : lvl = 2 <;> by_cases h3 : lvl = 3 <;>
    simp [h1, h2, h3]

theorem dictGet_question_banks_cases {sk : String} {tiers : PyDict (List Addr)}
    (h : dictGet question_banks sk = some tiers) :
    (sk = "mathematics" ∧ tiers = [("easy", [0, 1, 2, 3]), ("medium", [4, 5, 6]), ("hard", [7, 8])]) ∨
    (sk = "computer_science" ∧ tiers = [("easy", [9, 10, 11]), ("medium", [12, 13, 14]), ("hard", [15, 16])]) ∨
    (sk = "physics" ∧ tiers = [("easy", [17, 18]), ("medium", [19, 20]), ("hard", [21, 22])]) ∨
    (sk = "literature" ∧ tiers = [("easy", [23, 24]), ("medium", [25, 26]), ("hard", [27, 28])]) := by
  unfold dictGet at h
  rw [Option.map_eq_some'] at h
  obtain ⟨pr, hfind, hsnd⟩ := h
  have hmem := List.mem_of_find?_eq_some hfind
  have hkey : pr.1 = sk := by simpa using List.find?_some hfind
  simp only [question_banks, List.mem_cons, List.not_mem_nil, or_false] at hmem
  rcases hmem with rfl | rfl | rfl | rfl
  · exact Or.inl ⟨hkey.symm, hsnd.symm⟩
  · exact Or.inr (Or.inl ⟨hkey.symm, hsnd.symm⟩)
  · exact Or.inr (Or.inr (Or.inl ⟨hkey.symm, hsnd.symm⟩))
  · exact Or.inr (Or.inr (Or.inr ⟨hkey.symm, hsnd.symm⟩))

theorem availablePool_nodup (sk : String) {d : String}
    (hd : d = "easy" ∨ d = "medium" ∨ d = "hard") (n : Int) :
    (availablePool sk d n).Nodup := by
  cases hsk : dictGet question_banks sk with
  | none =>
      have hbl : bankLookup sk d = none := by simp [bankLookup, hsk]
      simp only [availablePool, hbl, hsk]
      rcases hd with rfl | rfl | rfl <;>
      · split <;>
        · try simp only [Option.isSome_none, Bool.false_eq_true, and_false, if_false,
            List.foldl_cons, List.foldl_nil]
          decide
  | some tiers =>
      rcases dictGet_question_banks_cases hsk with ⟨rfl, rfl⟩ | ⟨rfl, rfl⟩ | ⟨rfl, rfl⟩ | ⟨rfl, rfl⟩ <;>
        rcases hd with rfl | rfl | rfl <;>
        · simp only [availablePool]
          split <;> decide

theorem generate_quiz_shape (heap : Heap) (topic : String) (lvl : Int)
    (subject : String) (num : Int) (perm : List Nat) {qs : List Addr} {h' : Heap}
    (hok : generate_quiz heap topic lvl subject num perm = Except.ok (qs, h')) :
    random_sample
      (availablePool (normalizeKey (resolveSubject topic subject)) (difficultyOf lvl) num)
      (min num ((availablePool (normalizeKey (resolveSubject topic subject)) (difficultyOf lvl) num).length : Int))
      perm = Except.ok qs ∧
    h' = stampQuiz heap qs topic (difficultyOf lvl) (resolveSubject topic subject) := by
  simp only [generate_quiz] at hok
  set pool := availablePool (normalizeKey (resolveSubject topic subject)) (difficultyOf lvl) num with hpool
  cases hs : random_sample pool (min num (pool.length : Int)) perm with
  | error e =>
      rw [hs] at hok
      simp at hok
  | ok sel =>
      rw [hs] at hok
      simp only [Except.ok.injEq, Prod.mk.injEq] at hok
      obtain ⟨rfl, rfl⟩ := hok
      exact ⟨rfl, rfl⟩

theorem generate_quiz_length_nodup {heap : Heap} {topic : String} {lvl : Int}
    {subject : String} {num : Int} {perm : List Nat} {qs : List Addr} {h' : Heap}
    (hok : generate_quiz heap topic lvl subject num perm = Except.ok (qs, h')) :
    (qs.length : Int) ≤ num ∧ qs.Nodup := by
  obtain ⟨hs, -⟩ := generate_quiz_shape heap topic lvl subject num perm hok
  set pool := availablePool (normalizeKey (resolveSubject topic subject)) (difficultyOf lvl) num with hpool
  obtain ⟨hlen, -, hnd, hk0, -⟩ := random_sample_spec hs
  refine ⟨?_, hnd (availablePool_nodup _ (difficultyOf_cases lvl) _)⟩
  have h1 : min num (pool.length : Int) ≤ num := min_le_left _ _
  omega

theorem generate_quiz_total (heap : Heap) (topic : String) (lvl : Int)
    (subject : String) (num : Int) (perm : List Nat) (h0 : 0 ≤ num) :
    ∃ out, generate_quiz heap topic lvl subject num perm = Except.ok out := by
  simp only [generate_quiz]
  set pool := availablePool (normalizeKey (resolveSubject topic subject)) (difficultyOf lvl) num with hpool
  have hlen : (0 : Int) ≤ (pool.length : Int) := Int.natCast_nonneg _
  obtain ⟨out, hout⟩ := random_sample_ok pool (min num (pool.length : Int)) perm
    (le_min h0 hlen) (min_le_right _ _)
  rw [hout]
  exact ⟨_, rfl⟩

/-- When the normalized subject key is not a bank key, the pool is
exactly the mathematics pool of the mapped tier: the fallback-tier
extension never fires. -/
theorem availablePool_unknown_subject {sk : String} (d : String) (n : Int)
    (hsk : dictGet question_banks sk = none) :
    availablePool sk d n = (bankLookup "mathematics" d).getD [] := by
  have hbl : bankLookup sk d = none := by simp [bankLookup, hsk]
  simp only [availablePool, hbl, hsk]
  split
  · simp only [Option.isSome_none, Bool.false_eq_true, and_false, if_false,
      List.foldl_cons, List.foldl_nil]
  · rfl

/-!  ## `generate_diagnostic_quiz` lemmas -/

theorem foldl_preserve {β γ : Type} (P : γ → Prop) (f : γ → β → γ) (l : List β)
    (st : γ) (hst : P st) (hf : ∀ s b, P s → P (f s b)) : P (l.foldl f st) := by
  induction l generalizing st with
  | nil => exact hst
  | cons b rest ih => exact ih (f st b) (hf st b hst)

theorem subjects_tier_pool (s : String) (hs : s ∈ question_banks.map (fun p => p.1))
    (d : String) (hd : d ∈ (["easy", "medium", "hard"] : List String)) :
    ∃ tiers pool, dictGet question_banks s = some tiers ∧ dictGet tiers d = some pool ∧
      pool ≠ [] ∧ ∀ x ∈ pool, x < init_heap.length := by
  fin_cases hs <;> fin_cases hd <;> exact ⟨_, _, rfl, rfl, by decide, by decide⟩

theorem diagUnit_cases (pickS pickQ : Nat → Nat) (d : String)
    (acc : List Addr) (hp : Heap) (c : Nat) :
    diagUnit pickS pickQ d (acc, hp, c) = (acc, hp, c + 1) ∨
    ∃ q, diagUnit pickS pickQ d (acc, hp, c) =
      (acc ++ [hp.length], hp ++ [q], c + 1) := by
  simp only [diagUnit]
  split
  · exact Or.inl rfl
  · split
    · exact Or.inl rfl
    · split
      · exact Or.inl rfl
      · split
        · exact Or.inl rfl
        · exact Or.inr ⟨_, rfl⟩

theorem diagUnit_inv (pickS pickQ : Nat → Nat) (d : String)
    (st : List Addr × Heap × Nat) (hnd : st.1.Nodup)
    (hbd : ∀ a ∈ st.1, a < st.2.1.length) :
    (diagUnit pickS pickQ d st).1.Nodup ∧
      ∀ a ∈ (diagUnit pickS pickQ d st).1, a < (diagUnit pickS pickQ d st).2.1.length := by
  obtain ⟨acc, hp, c⟩ := st
  rcases diagUnit_cases pickS pickQ d acc hp c with h | ⟨q, h⟩ <;> rw [h]
  · exact ⟨hnd, hbd⟩
  · constructor
    · show (acc ++ [hp.length]).Nodup
      rw [List.nodup_append]
      refine ⟨hnd, List.nodup_singleton _, ?_⟩
      intro a ha hmem
      rw [List.mem_singleton] at hmem
      subst hmem
      exact lt_irrefl _ (hbd _ ha)
    · show ∀ a ∈ acc ++ [hp.length], a < (hp ++ [q]).length
      intro a ha
      rw [List.length_append, List.length_singleton]
      rcases List.mem_append.mp ha with ha | ha
      · exact Nat.lt_succ_of_lt (hbd a ha)
      · rw [List.mem_singleton] at ha
        subst ha
        exact Nat.lt_succ_self _

theorem generate_diagnostic_nodup (heap : Heap) (num : Int)
    (pickS pickQ : Nat → Nat) (perm : List Nat) :
    (generate_diagnostic_quiz heap num pickS pickQ perm).1.Nodup := by
  have h := foldl_preserve
    (fun st : List Addr × Heap × Nat => st.1.Nodup ∧ ∀ a ∈ st.1, a < st.2.1.length)
    (fun st p => (List.range (tierAlloc num p.1).toNat).foldl
      (fun st2 _ => diagUnit pickS pickQ p.2 st2) st)
    ((["easy", "medium", "hard"] : List String).enum)
    (([] : List Addr), heap, 0) ⟨List.nodup_nil, by simp⟩
    (fun s b hs => foldl_preserve
      (fun st : List Addr × Heap × Nat => st.1.Nodup ∧ ∀ a ∈ st.1, a < st.2.1.length)
      (fun st2 _ => diagUnit pickS pickQ b.2 st2)
      (List.range (tierAlloc num b.1).toNat) s hs
      (fun s' _ hs' => diagUnit_inv pickS pickQ b.2 s' hs'.1 hs'.2))
  exact random_shuffle_nodup perm h.1

theorem diagUnit_adds (pickS pickQ : Nat → Nat) {d : String}
    (hd : d ∈ (["easy", "medium", "hard"] : List String))
    (st : List Addr × Heap × Nat) (h29 : init_heap.length ≤ st.2.1.length) :
    ∃ q, diagUnit pickS pickQ d st =
      (st.1 ++ [st.2.1.length], st.2.1 ++ [q], st.2.2 + 1) := by
  obtain ⟨acc, hp, c⟩ := st
  simp only [diagUnit]
  have hmlt : pickS c % (question_banks.map (fun p => p.1)).length <
      (question_banks.map (fun p => p.1)).length := Nat.mod_lt _ (by decide)
  have hsub : (question_banks.map (fun p => p.1)).getD
      (pickS c % (question_banks.map (fun p => p.1)).length) "" ∈
      question_banks.map (fun p => p.1) := by
    rw [List.getD_eq_getElem _ _ hmlt]
    exact List.getElem_mem _
  obtain ⟨tiers, pool, h1, h2, h3, h4⟩ := subjects_tier_pool _ hsub d hd
  simp only [h1, h2]
  have hne : pool.isEmpty = false := by
    simp [List.isEmpty_iff, h3]
  simp only [hne, Bool.false_eq_true, if_false]
  have hplt : pickQ c % pool.length < pool.length :=
    Nat.mod_lt _ (List.length_pos.mpr h3)
  have ha : pool.getD (pickQ c % pool.length) 0 < init_heap.length := by
    rw [List.getD_eq_getElem _ _ hplt]
    exact h4 _ (List.getElem_mem _)
  have halt : pool.getD (pickQ c % pool.length) 0 < hp.length := lt_of_lt_of_le ha h29
  rw [List.get?_eq_get halt]
  exact ⟨_, rfl⟩

theorem foldRange_grows (pickS pickQ : Nat → Nat) {d : String}
    (hd : d ∈ (["easy", "medium", "hard"] : List String)) (k : Nat) :
    ∀ st : List Addr × Heap × Nat, init_heap.length ≤ st.2.1.length →
      ((List.range k).foldl (fun st2 _ => diagUnit pickS pickQ d st2) st).1.length
          = st.1.length + k ∧
      ((List.range k).foldl (fun st2 _ => diagUnit pickS pickQ d st2) st).2.1.length
          = st.2.1.length + k := by
  induction k with
  | zero => intro st _; simp
  | succ n ih =>
      intro st hst
      rw [List.range_succ, List.foldl_append]
      obtain ⟨ih1, ih2⟩ := ih st hst
      have h29 : init_heap.length ≤
          ((List.range n).foldl (fun st2 _ => diagUnit pickS pickQ d st2) st).2.1.length := by
        omega
      obtain ⟨q, hq⟩ := diagUnit_adds pickS pickQ hd _ h29
      simp only [List.foldl_cons, List.foldl_nil]
      rw [hq]
      simp only [List.length_append, List.length_singleton]
      omega

theorem generate_diagnostic_length (num : Int)
    (pickS pickQ : Nat → Nat) (perm : List Nat) :
    (generate_diagnostic_quiz init_heap num pickS pickQ perm).1.length =
      (tierAlloc num 0).toNat + (tierAlloc num 1).toNat + (tierAlloc num 2).toNat := by
  simp only [generate_diagnostic_quiz]
  have henum : (["easy", "medium", "hard"] : List String).enum =
      [(0, "easy"), (1, "medium"), (2, "hard")] := rfl
  rw [henum]
  simp only [List.foldl_cons, List.foldl_nil]
  obtain ⟨e1, e2⟩ := foldRange_grows pickS pickQ (show "easy" ∈ (["easy", "medium", "hard"] : List String) by decide)
    (tierAlloc num 0).toNat ((([] : List Addr), init_heap, 0)) (by simp)
  simp only [List.length_nil, Nat.zero_add] at e1 e2
  set st1 := (List.range (tierAlloc num 0).toNat).foldl
    (fun st2 _ => diagUnit pickS pickQ "easy" st2) ((([] : List Addr), init_heap, 0)) with hst1
  obtain ⟨m1, m2⟩ := foldRange_grows pickS pickQ (show "medium" ∈ (["easy", "medium", "hard"] : List String) by decide)
    (tierAlloc num 1).toNat st1 (by omega)
  set st2 := (List.range (tierAlloc num 1).toNat).foldl
    (fun st2 _ => diagUnit pickS pickQ "medium" st2) st1 with hst2
  obtain ⟨f1, f2⟩ := foldRange_grows pickS pickQ (show "hard" ∈ (["easy", "medium", "hard"] : List String) by decide)
    (tierAlloc num 2).toNat st2 (by omega)
  rw [random_shuffle_length]
  omega

/-!  ## `evaluate_answers` lemmas -/

/-- The data-model invariant on questions: the correct index addresses an
option (§3 of the specification; every bank record satisfies it). -/
def validQ (q : Question) : Prop :=
  0 ≤ q.correct ∧ q.correct < (q.options.length : Int)

instance (q : Question) : Decidable (validQ q) :=
  inferInstanceAs (Decidable (_ ∧ _))

/-- The feedback record `evalPair` produces when the question is valid. -/
def evalPairOk (i : Nat) (q : Question) (a : Int) : FeedbackItem :=
  { question_id := i, question := q.question,
    your_answer :=
      if 0 ≤ a ∧ a < (q.options.length : Int) then q.options.getD a.toNat ""
      else "No answer",
    correct_answer := q.options.getD q.correct.toNat "",
    is_correct := a == q.correct, explanation := q.explanation, topic := q.topic }

theorem evalPair_eq_ok (i : Nat) (q : Question) (a : Int) (hv : validQ q) :
    evalPair i q a = Except.ok (evalPairOk i q a) := by
  obtain ⟨hv1, hv2⟩ := hv
  simp only [evalPair, pyIndex, if_pos (And.intro hv1 hv2)]
  rfl

theorem mapM_ok_of_forall {α β : Type} (f : α → Except String β) (g : α → β)
    (l : List α) (h : ∀ x ∈ l, f x = Except.ok (g x)) :
    l.mapM f = Except.ok (l.map g) := by
  induction l with
  | nil => rfl
  | cons a rest ih =>
      rw [List.mapM_cons, h a (List.mem_cons_self a rest),
        ih (fun x hx => h x (List.mem_cons_of_mem a hx))]
      rfl

theorem evaluate_answers_main {questions : List Question} {answers : List Int}
    (hq : questions ≠ []) (ha : answers ≠ [])
    (hval : ∀ q ∈ questions, validQ q) :
    evaluate_answers questions answers = Except.ok
      { score := percentageOf questions answers,
        percentage := percentageOf questions answers,
        total_questions := questions.length,
        correct_answers := correct_count questions answers,
        performance_level := performanceLevelOf (percentageOf questions answers),
        feedback := ((questions.zip answers).enum).map (fun p => evalPairOk p.1 p.2.1 p.2.2),
        recommendations := some (generate_recommendations (percentageOf questions answers)
          (((questions.zip answers).enum).map (fun p => evalPairOk p.1 p.2.1 p.2.2))) } := by
  have hmap : ((questions.zip answers).enum).mapM (fun p => evalPair p.1 p.2.1 p.2.2) =
      Except.ok (((questions.zip answers).enum).map (fun p => evalPairOk p.1 p.2.1 p.2.2)) := by
    refine mapM_ok_of_forall _ _ _ (fun p hp => ?_)
    have hq' : p.2.1 ∈ questions := by
      have hz : p.2 ∈ questions.zip answers := by
        rw [List.mem_enum_iff_getElem?] at hp
        exact List.getElem?_mem hp
      exact (List.mem_zip (a := p.2.1) (b := p.2.2) (by simpa using hz)).1
    exact evalPair_eq_ok _ _ _ (hval _ hq')
  rw [evaluate_answers, if_neg (by simp [hq, ha]), hmap]

theorem evaluate_answers_incomplete {questions : List Question} {answers : List Int}
    (h : questions = [] ∨ answers = []) :
    evaluate_answers questions answers = Except.ok
      { score := 0, percentage := 0, total_questions := questions.length,
        correct_answers := 0, performance_level := "Incomplete",
        feedback := [], recommendations := none } := by
  rw [evaluate_answers, if_pos]
  rcases h with rfl | rfl
  · exact Or.inl rfl
  · exact Or.inr rfl

/-!  ## `_generate_recommendations` lemmas -/

/-- The topic labels of the incorrect feedback records, in feedback
order (the specification's grouping source). -/
def incorrectTopics (feedback : List FeedbackItem) : List String :=
  (feedback.filter (fun fb => !fb.is_correct)).map (fun fb => fb.topic)

/-- The specification's description of the weak-topic dictionary:
incorrect counts per topic, keyed in first-encounter order. -/
def specCounts (feedback : List FeedbackItem) : List (String × Nat) :=
  (firstDedup (incorrectTopics feedback)).map
    (fun t => (t, (incorrectTopics feedback).count t))

/-- The counts-table abstraction used to relate `weak_topics` to
`specCounts`. -/
def toCounts (p : List String) : List (String × Nat) :=
  (firstDedup p).map (fun t => (t, p.count t))

theorem firstDedup_append_mem {α : Type} [DecidableEq α] {p : List α} {x : α}
    (hx : x ∈ p) : firstDedup (p ++ [x]) = firstDedup p := by
  unfold firstDedup
  rw [List.reverse_append, List.reverse_singleton, List.singleton_append,
    List.dedup_cons_of_mem (List.mem_reverse.mpr hx)]

theorem firstDedup_append_not_mem {α : Type} [DecidableEq α] {p : List α} {x : α}
    (hx : x ∉ p) : firstDedup (p ++ [x]) = firstDedup p ++ [x] := by
  unfold firstDedup
  rw [List.reverse_append, List.reverse_singleton, List.singleton_append,
    List.dedup_cons_of_not_mem (fun h => hx (List.mem_reverse.mp h)),
    List.reverse_cons]

theorem bumpTopic_toCounts (p : List String) (x : String) :
    bumpTopic (toCounts p) x = toCounts (p ++ [x]) := by
  by_cases hx : x ∈ p
  · have hfind : ((toCounts p).find? (fun pr => pr.1 == x)).isSome = true := by
      rw [List.find?_isSome]
      exact ⟨(x, p.count x), List.mem_map.mpr ⟨x, mem_firstDedup.mpr hx, rfl⟩, by simp⟩
    rw [bumpTopic, if_pos hfind, toCounts, toCounts, firstDedup_append_mem hx,
      List.map_map]
    refine List.map_congr_left (fun t ht => ?_)
    by_cases hteq : t = x
    · subst hteq
      simp [List.count_append, List.count_singleton]
    · simp [hteq, List.count_append, List.count_singleton, Ne.symm hteq]
  · have hfind : ((toCounts p).find? (fun pr => pr.1 == x)).isSome = false := by
      rw [Bool.eq_false_iff, Ne, List.find?_isSome]
      rintro ⟨pr, hpr, hkey⟩
      obtain ⟨t, ht, rfl⟩ := List.mem_map.mp hpr
      have htx : t = x := by simpa using hkey
      exact hx (mem_firstDedup.mp (htx ▸ ht))
    rw [bumpTopic, if_neg (by simp [hfind]), toCounts, toCounts,
      firstDedup_append_not_mem hx, List.map_append]
    congr 1
    · refine List.map_congr_left (fun t ht => ?_)
      have hneq : t ≠ x := fun h => hx (mem_firstDedup.mp (h ▸ ht))
      simp [List.count_append, List.count_singleton, Ne.symm hneq]
    · simp [List.count_append, List.count_singleton,
        List.count_eq_zero.mpr hx]

theorem foldl_bumpTopic_toCounts (l : List String) :
    ∀ p : List String, l.foldl bumpTopic (toCounts p) = toCounts (p ++ l) := by
  induction l with
  | nil => intro p; simp
  | cons x xs ih =>
      intro p
      rw [List.foldl_cons, bumpTopic_toCounts, ih (p ++ [x]), List.append_assoc,
        List.singleton_append]

theorem incorrectTopics_cons (fb : FeedbackItem) (rest : List FeedbackItem) :
    incorrectTopics (fb :: rest) =
      if fb.is_correct then incorrectTopics rest
      else fb.topic :: incorrectTopics rest := by
  unfold incorrectTopics
  by_cases hc : fb.is_correct
  · rw [List.filter_cons_of_neg (by simp [hc]), if_pos hc]
  · rw [List.filter_cons_of_pos (by simp [hc]), List.map_cons, if_neg hc]

theorem weak_topics_foldl (feedback : List FeedbackItem) :
    ∀ acc : List (String × Nat),
      feedback.foldl (fun m item => if item.is_correct then m else bumpTopic m item.topic) acc
        = (incorrectTopics feedback).foldl bumpTopic acc := by
  induction feedback with
  | nil => intro acc; rfl
  | cons fb rest ih =>
      intro acc
      rw [List.foldl_cons, incorrectTopics_cons]
      by_cases hc : fb.is_correct
      · rw [if_pos hc, if_pos hc, ih acc]
      · rw [if_neg hc, if_neg hc, List.foldl_cons, ih (bumpTopic acc fb.topic)]

theorem weak_topics_eq_specCounts (feedback : List FeedbackItem) :
    weak_topics feedback = specCounts feedback := by
  have h0 : toCounts [] = [] := rfl
  rw [weak_topics, weak_topics_foldl feedback [], show ([] : List (String × Nat)) = toCounts [] from rfl,
    foldl_bumpTopic_toCounts, List.nil_append]
  rfl

theorem weak_topics_nil_iff (feedback : List FeedbackItem) :
    weak_topics feedback = [] ↔ ∀ fb ∈ feedback, fb.is_correct = true := by
  rw [weak_topics_eq_specCounts, specCounts]
  rw [List.map_eq_nil]
  unfold firstDedup
  rw [List.reverse_eq_nil_iff, List.dedup_eq_nil, List.reverse_eq_nil_iff]
  rw [incorrectTopics, List.map_eq_nil, List.filter_eq_nil]
  constructor
  · intro h fb hfb
    have := h fb hfb
    simpa using this
  · intro h fb hfb
    simp [h fb hfb]

theorem specCounts_pos (feedback : List FeedbackItem) :
    ∀ pr ∈ specCounts feedback, 0 < pr.2 := by
  intro pr hpr
  obtain ⟨t, ht, rfl⟩ := List.mem_map.mp hpr
  have : t ∈ incorrectTopics feedback := mem_firstDedup.mp ht
  have h0 : (incorrectTopics feedback).count t ≠ 0 := by
    rw [Ne, List.count_eq_zero]
    exact fun h => h this
  omega

theorem foldl_bestStep_gen (l : List (String × Nat)) :
    ∀ acc : String × Nat,
      (l.foldl bestStep acc = acc ∧ ∀ p ∈ l, p.2 ≤ acc.2) ∨
      (∃ l₁ l₂, l = l₁ ++ (l.foldl bestStep acc) :: l₂ ∧
        acc.2 < (l.foldl bestStep acc).2 ∧
        (∀ p ∈ l₁, p.2 ≤ acc.2 ∨ p.2 < (l.foldl bestStep acc).2) ∧
        (∀ p ∈ l₂, p.2 ≤ (l.foldl bestStep acc).2)) := by
  induction l with
  | nil => intro acc; exact Or.inl ⟨rfl, by simp⟩
  | cons x xs ih =>
      intro acc
      rw [List.foldl_cons]
      by_cases hbx : x.2 > acc.2
      · have hstep : bestStep acc x = x := if_pos hbx
        rw [hstep]
        rcases ih x with ⟨heq, hall⟩ | ⟨m₁, m₂, hsplit, hlt, h₁, h₂⟩
        · rw [heq]
          exact Or.inr ⟨[], xs, by simp, hbx, by simp, hall⟩
        · refine Or.inr ⟨x :: m₁, m₂, by rw [List.cons_append, ← hsplit], ?_, ?_, h₂⟩
          · exact lt_trans hbx hlt
          · intro p hp
            rcases List.mem_cons.mp hp with rfl | hp
            · exact Or.inr hlt
            · rcases h₁ p hp with h | h
              · exact Or.inr (lt_of_le_of_lt h hlt)
              · exact Or.inr h
      · have hstep : bestStep acc x = acc := if_neg hbx
        rw [hstep]
        rcases ih acc with ⟨heq, hall⟩ | ⟨m₁, m₂, hsplit, hlt, h₁, h₂⟩
        · refine Or.inl ⟨heq, fun p hp => ?_⟩
          rcases List.mem_cons.mp hp with rfl | hp
          · omega
          · exact hall p hp
        · refine Or.inr ⟨x :: m₁, m₂, by rw [List.cons_append, ← hsplit], hlt, ?_, h₂⟩
          intro p hp
          rcases List.mem_cons.mp hp with rfl | hp
          · exact Or.inl (by omega)
          · exact h₁ p hp

theorem foldl_bestStep_first_max (l : List (String × Nat))
    (hpos : ∀ p ∈ l, 0 < p.2) (hne : l ≠ []) :
    ∃ l₁ l₂, l = l₁ ++ (l.foldl bestStep ("", 0)) :: l₂ ∧
      (∀ p ∈ l₁, p.2 < (l.foldl bestStep ("", 0)).2) ∧
      (∀ p ∈ l₂, p.2 ≤ (l.foldl bestStep ("", 0)).2) := by
  rcases foldl_bestStep_gen l ("", 0) with ⟨-, hall⟩ | ⟨l₁, l₂, hsplit, -, h₁, h₂⟩
  · obtain ⟨p, hp⟩ := List.exists_mem_of_ne_nil l hne
    exact absurd (hall p hp) (by have := hpos p hp; omega)
  · refine ⟨l₁, l₂, hsplit, fun p hp => ?_, h₂⟩
    rcases h₁ p hp with h | h
    · have : p ∈ l := hsplit ▸ List.mem_append_left _ hp
      exact absurd h (by have := hpos p this; omega)
    · exact h

theorem attnLine_take4 (t : String) : (attnLine t).data.take 4 = ['P', 'a', 'y', ' '] := by
  unfold attnLine
  rw [String.data_append, String.data_append, List.append_assoc,
    List.take_append_of_le_length (by decide)]
  decide

theorem attnLine_not_mem_base (t : String) (pct : ℚ) : attnLine t ∉ baseRecs pct := by
  intro hmem
  have h4 := attnLine_take4 t
  unfold baseRecs at hmem
  split_ifs at hmem <;>
    simp only [List.mem_cons, List.not_mem_nil, or_false] at hmem
  · rcases hmem with h | h <;> (rw [h] at h4; exact absurd h4 (by decide))
  · rcases hmem with h | h <;> (rw [h] at h4; exact absurd h4 (by decide))
  · rcases hmem with h | h | h <;> (rw [h] at h4; exact absurd h4 (by decide))

theorem attnLine_injective {t u : String} (h : attnLine t = attnLine u) : t = u := by
  unfold attnLine at h
  have hd := congrArg String.data h
  simp only [String.data_append, List.append_assoc] at hd
  exact String.ext (List.append_cancel_right (List.append_cancel_left hd))

theorem generate_recommendations_eq (pct : ℚ) (feedback : List FeedbackItem) :
    generate_recommendations pct feedback =
      baseRecs pct ++
        (if weak_topics feedback ≠ [] ∧
            ((weak_topics feedback).foldl bestStep ("", 0)).1 ≠ ""
         then [attnLine ((weak_topics feedback).foldl bestStep ("", 0)).1] else []) := by
  unfold generate_recommendations
  by_cases hwt : weak_topics feedback = []
  · rw [hwt]
    simp
  · rw [if_neg (by simp [List.isEmpty_iff, hwt])]
    by_cases hb : ((weak_topics feedback).foldl bestStep ("", 0)).1 ≠ ""
    · rw [if_pos hb, if_pos ⟨hwt, hb⟩]
    · rw [if_neg hb, if_neg (by tauto), List.append_nil]

/-!  ## `generate_adaptive_quiz` lemmas -/

/-- Modelled on the specification wording for the adaptive engine: the
arithmetic mean of the percentages of the most recent five history
entries (or all of them when the history is shorter). -/
def specRecentMean (history : List Attempt) : ℚ :=
  let recent := (history.reverse.take 5).map (fun a => a.percentage)
  recent.sum / (recent.length : ℚ)

theorem recentAvg_eq_spec (history : List Attempt) :
    recentAvg history = specRecentMean history := by
  unfold recentAvg specRecentMean
  simp only [List.take_reverse, List.map_reverse, List.sum_reverse, List.length_reverse]

/-- Modelled on the specification's performance-tier table:
inclusive lower bounds, evaluated top-down, first match wins. -/
def specPerformanceLevel (p : ℚ) : String :=
  if 90 ≤ p then "Excellent"
  else if 80 ≤ p then "Very Good"
  else if 70 ≤ p then "Good"
  else if 60 ≤ p then "Fair"
  else "Needs Improvement"

/-!  ## Claim theorems -/

/-- C1: the claim states that `generate_quiz` never mutates the canonical
bank; the code refutes it.  `generate_quiz("algebra", 1, "mathematics", 1)`
stamps `generated_topic` through the shared reference: afterwards the heap
record at address 0 — a record of the bank's mathematics/easy pool —
carries `generated_topic = "algebra"`, while before the call it carried
no such key.  (`.copy()` in the source copies only the list, not the
question dictionaries, so the returned questions alias the bank.) -/
theorem generate_quiz_mutates_bank :
    (0 : Addr) ∈ (bankLookup "mathematics" "easy").getD [] ∧
    (init_heap.getD 0 default).generated_topic = none ∧
    (generate_quiz init_heap "algebra" 1 "mathematics" 1 []).toOption.map
      (fun r => (r.2.getD 0 default).generated_topic) = some (some "algebra") :=
  ⟨by decide, rfl, rfl⟩

/-- C2: every quiz returned by `generate_quiz` has at most the requested
number of questions and contains no address twice (entries are pairwise
distinct by identity), and every quiz returned by
`generate_diagnostic_quiz` contains no address twice (every entry is a
fresh copy). -/
theorem generated_quiz_length_and_distinct :
    (∀ (heap : Heap) (topic : String) (lvl : Int) (subject : String) (num : Int)
        (perm : List Nat) (qs : List Addr) (h' : Heap),
        generate_quiz heap topic lvl subject num perm = Except.ok (qs, h') →
        (qs.length : Int) ≤ num ∧ qs.Nodup) ∧
    (∀ (heap : Heap) (num : Int) (pickS pickQ : Nat → Nat) (perm : List Nat),
        (generate_diagnostic_quiz heap num pickS pickQ perm).1.Nodup) :=
  ⟨fun _ _ _ _ _ _ _ _ hok => generate_quiz_length_nodup hok,
   fun heap num pickS pickQ perm => generate_diagnostic_nodup heap num pickS pickQ perm⟩

/-- Witness for C2 at a concrete call: requesting 9 mathematics/easy
questions extends the pool over all three tiers and returns 9 distinct
addresses; a size-10 diagnostic quiz is duplicate-free. -/
theorem generated_quiz_length_and_distinct_witness :
    ((([5, 2, 0, 1, 3, 4, 6, 7, 8] : List Addr).length : Int) ≤ 9 ∧
      ([5, 2, 0, 1, 3, 4, 6, 7, 8] : List Addr).Nodup) ∧
    (generate_diagnostic_quiz init_heap 10 (fun n => n) (fun n => n) []).1.Nodup :=
  ⟨generated_quiz_length_and_distinct.1 init_heap "x" 1 "mathematics" 9 [5, 5, 2]
      [5, 2, 0, 1, 3, 4, 6, 7, 8]
      (stampQuiz init_heap [5, 2, 0, 1, 3, 4, 6, 7, 8] "x" "easy" "mathematics") rfl,
   generated_quiz_length_and_distinct.2 init_heap 10 (fun n => n) (fun n => n) []⟩

/-- C3 counterexample: the claim asserts `generate_quiz` never raises for
any integer count, including negative ones; but a negative requested
count reaches `random.sample` with a negative sample size, which raises
`ValueError`. -/
theorem generate_quiz_negative_count_raises :
    generate_quiz init_heap "x" 1 "mathematics" (-1) [] =
      Except.error "ValueError: Sample larger than population or is negative" :=
  rfl

/-- C3 (amended): for every topic, difficulty level (recognized or not),
subject (known or not) and NON-NEGATIVE count, `generate_quiz` returns a
quiz instead of raising. -/
theorem generate_quiz_never_raises (heap : Heap) (topic : String) (lvl : Int)
    (subject : String) (num : Int) (perm : List Nat) (h0 : 0 ≤ num) :
    ∃ out, generate_quiz heap topic lvl subject num perm = Except.ok out :=
  generate_quiz_total heap topic lvl subject num perm h0

/-- Witness for C3 (amended) at count 0 with an unrecognized difficulty
level and unknown subject. -/
theorem generate_quiz_never_raises_witness :
    (0 : Int) ≤ 0 ∧
      ∃ out, generate_quiz init_heap "a" 7 "botany" 0 [] = Except.ok out :=
  ⟨le_refl 0, generate_quiz_never_raises init_heap "a" 7 "botany" 0 [] (le_refl 0)⟩

/-- C4: an all-correct, equal-length answer set over a non-empty quiz of
valid questions evaluates to percentage 100 and performance level
Excellent; and in general the performance level of a non-empty
evaluation is the specification's top-down inclusive threshold
classification of the percentage. -/
theorem evaluate_all_correct_excellent :
    (∀ (questions : List Question) (answers : List Int),
        questions ≠ [] →
        List.Forall₂ (fun (q : Question) (a : Int) => a = q.correct) questions answers →
        (∀ q ∈ questions, validQ q) →
        ∃ r, evaluate_answers questions answers = Except.ok r ∧
          r.percentage = 100 ∧ r.performance_level = "Excellent") ∧
    (∀ (questions : List Question) (answers : List Int) (r : EvaluationResult),
        questions ≠ [] → answers ≠ [] →
        evaluate_answers questions answers = Except.ok r →
        r.performance_level = specPerformanceLevel r.percentage) := by
  constructor
  · intro questions answers hq hans hval
    have hlen : questions.length = answers.length := hans.length_eq
    have ha : answers ≠ [] := by
      intro h
      subst h
      exact hq (List.eq_nil_of_length_eq_zero (by simpa using hlen))
    have hcc : correct_count questions answers = questions.length := by
      unfold correct_count
      rw [List.filter_eq_self.mpr, List.length_zip, hlen, min_self]
      intro p hp
      have hR := (List.forall₂_iff_zip.mp hans).2
        (show (p.1, p.2) ∈ questions.zip answers by simpa using hp)
      simpa using hR
    have hne : ((questions.length : ℚ)) ≠ 0 := by
      have : questions.length ≠ 0 := fun h => hq (List.eq_nil_of_length_eq_zero h)
      exact_mod_cast this
    have h100 : percentageOf questions answers = 100 := by
      unfold percentageOf
      rw [hcc, div_self hne]
      norm_num
    refine ⟨_, evaluate_answers_main hq ha hval, ?_, ?_⟩
    · exact h100
    · show performanceLevelOf (percentageOf questions answers) = "Excellent"
      rw [h100]
      norm_num [performanceLevelOf]
  · intro questions answers r hq ha hok
    rw [evaluate_answers, if_neg (by simp [hq, ha])] at hok
    cases hmap : ((questions.zip answers).enum).mapM (fun p => evalPair p.1 p.2.1 p.2.2) with
    | error e => rw [hmap] at hok; exact absurd hok (by simp)
    | ok feedback =>
        rw [hmap] at hok
        simp only [Except.ok.injEq] at hok
        subst hok
        rfl

/-- Witness for C4 at a concrete two-question all-correct evaluation. -/
theorem evaluate_all_correct_excellent_witness :
    ∃ r, evaluate_answers [init_heap.getD 0 default, init_heap.getD 1 default] [2, 0] =
        Except.ok r ∧ r.percentage = 100 ∧ r.performance_level = "Excellent" :=
  evaluate_all_correct_excellent.1
    [init_heap.getD 0 default, init_heap.getD 1 default] [2, 0]
    (List.cons_ne_nil _ _)
    (List.Forall₂.cons rfl (List.Forall₂.cons rfl List.Forall₂.nil))
    (by decide)

/-- C5: an empty quiz or an empty answer list evaluates to the fixed
Incomplete result: score 0, percentage 0, zero correct answers,
performance level "Incomplete", empty feedback, and no recommendations
entry at all. -/
theorem evaluate_empty_incomplete (questions : List Question) (answers : List Int)
    (h : questions = [] ∨ answers = []) :
    evaluate_answers questions answers = Except.ok
      { score := 0, percentage := 0, total_questions := questions.length,
        correct_answers := 0, performance_level := "Incomplete",
        feedback := [], recommendations := none } :=
  evaluate_answers_incomplete h

/-- Witness for C5 at `evaluate_answers [] []`. -/
theorem evaluate_empty_incomplete_witness :
    (([] : List Question) = [] ∨ ([] : List Int) = []) ∧
    evaluate_answers [] [] = Except.ok
      { score := 0, percentage := 0, total_questions := 0,
        correct_answers := 0, performance_level := "Incomplete",
        feedback := [], recommendations := none } :=
  ⟨Or.inl rfl, evaluate_empty_incomplete [] [] (Or.inl rfl)⟩

/-- C6: in `evaluate_answers`, a pair whose answered index lies outside
`[0, number of options)` (including any negative missing-answer
sentinel) is counted incorrect and its feedback reports "No answer",
while an in-range answer is correct exactly when it equals the
question's correct index and its feedback reports the chosen option's
text. -/
theorem evaluate_per_pair_feedback (questions : List Question) (answers : List Int)
    (r : EvaluationResult) (i : Nat) (q : Question) (a : Int)
    (hval : ∀ q' ∈ questions, validQ q')
    (hok : evaluate_answers questions answers = Except.ok r)
    (hq : questions.get? i = some q) (ha : answers.get? i = some a) :
    ∃ fb, r.feedback.get? i = some fb ∧
      ((a < 0 ∨ (q.options.length : Int) ≤ a) →
        fb.is_correct = false ∧ fb.your_answer = "No answer") ∧
      (0 ≤ a → a < (q.options.length : Int) →
        ((fb.is_correct = true ↔ a = q.correct) ∧
          fb.your_answer = q.options.getD a.toNat "")) := by
  have hqne : questions ≠ [] := by
    intro h
    subst h
    simp at hq
  have hane : answers ≠ [] := by
    intro h
    subst h
    simp at ha
  rw [evaluate_answers_main hqne hane hval] at hok
  simp only [Except.ok.injEq] at hok
  subst hok
  have hv := hval q (List.get?_mem hq)
  refine ⟨evalPairOk i q a, ?_, ?_, ?_⟩
  · show (((questions.zip answers).enum).map
        (fun p => evalPairOk p.1 p.2.1 p.2.2)).get? i = some (evalPairOk i q a)
    rw [List.get?_map, List.get?_enum,
      (List.get?_zip_eq_some _ _ (q, a) i).mpr ⟨hq, ha⟩]
    rfl
  · intro hout
    constructor
    · show (a == q.correct) = false
      rw [beq_eq_false_iff_ne]
      rintro rfl
      rcases hout with h | h
      · exact absurd hv.1 (by omega)
      · exact absurd hv.2 (by omega)
    · show (if 0 ≤ a ∧ a < (q.options.length : Int) then q.options.getD a.toNat ""
          else "No answer") = "No answer"
      rw [if_neg]
      rintro ⟨h1, h2⟩
      rcases hout with h | h <;> omega
  · intro h1 h2
    refine ⟨beq_iff_eq .., ?_⟩
    show (if 0 ≤ a ∧ a < (q.options.length : Int) then q.options.getD a.toNat ""
        else "No answer") = q.options.getD a.toNat ""
    rw [if_pos ⟨h1, h2⟩]

/-- Witness for C6: a single-question quiz answered with the sentinel
`-1` yields an incorrect "No answer" feedback record. -/
theorem evaluate_per_pair_feedback_witness :
    ∃ r fb, evaluate_answers [init_heap.getD 0 default] [-1] = Except.ok r ∧
      r.feedback.get? 0 = some fb ∧
      fb.is_correct = false ∧ fb.your_answer = "No answer" := by
  have hok := evaluate_answers_main
    (show [init_heap.getD 0 default] ≠ [] from List.cons_ne_nil _ _)
    (show ([-1] : List Int) ≠ [] from List.cons_ne_nil _ _) (by decide)
  obtain ⟨fb, h1, h2, -⟩ := evaluate_per_pair_feedback
    [init_heap.getD 0 default] [-1] _ 0 (init_heap.getD 0 default) (-1)
    (by decide) hok rfl rfl
  obtain ⟨h3, h4⟩ := h2 (Or.inl (by norm_num))
  exact ⟨_, fb, hok, h1, h3, h4⟩

/-- C7: with an empty history the adaptive generator delegates to
`generate_quiz` at difficulty level 2 with the fixed generic topic; with
a non-empty history it averages the last five percentages and selects
level 3 exactly when the mean is at least 85, level 2 exactly when it is
at least 65 and below 85, and level 1 exactly when it is below 65, then
delegates at that level and stamps the result adaptive. -/
theorem adaptive_difficulty_selection (heap : Heap) (subject : String)
    (num : Int) (perm : List Nat) :
    (∀ hist : List Attempt, hist = [] →
      generate_adaptive_quiz heap hist subject num perm =
        generate_quiz heap "General Assessment" 2 subject num perm) ∧
    (∀ hist : List Attempt, hist ≠ [] →
      recentAvg hist = specRecentMean hist ∧
      (adaptiveLevel hist = 3 ↔ 85 ≤ specRecentMean hist) ∧
      (adaptiveLevel hist = 2 ↔ 65 ≤ specRecentMean hist ∧ specRecentMean hist < 85) ∧
      (adaptiveLevel hist = 1 ↔ specRecentMean hist < 65) ∧
      generate_adaptive_quiz heap hist subject num perm =
        (match generate_quiz heap ("Adaptive " ++ subject ++ " Quiz")
            (adaptiveLevel hist) subject num perm with
         | Except.error e => Except.error e
         | Except.ok (quiz, h) => Except.ok (quiz, stampAdaptive h quiz (recentAvg hist)))) := by
  constructor
  · rintro hist rfl
    rfl
  · intro hist hne
    have hlvl : adaptiveLevel hist =
        if specRecentMean hist ≥ 85 then 3
        else if specRecentMean hist ≥ 65 then 2 else 1 := by
      rw [← recentAvg_eq_spec]
      rfl
    refine ⟨recentAvg_eq_spec hist, ?_, ?_, ?_, ?_⟩
    · rw [hlvl]
      split_ifs with h1 h2 <;> simp_all
    · rw [hlvl]
      split_ifs with h1 h2 <;> push_neg at * <;> simp_all
    · rw [hlvl]
      split_ifs with h1 h2 <;> push_neg at * <;> simp_all <;> linarith
    · rw [generate_adaptive_quiz, if_neg (by simp [hne])]

/-- Witness for C7: concrete five-entry histories averaging 90, 50 and
exactly 65 select levels 3, 1 and 2 respectively, and the empty history
delegates at level 2. -/
theorem adaptive_difficulty_selection_witness :
    adaptiveLevel [⟨90⟩, ⟨90⟩, ⟨90⟩, ⟨90⟩, ⟨90⟩] = 3 ∧
    adaptiveLevel [⟨50⟩, ⟨50⟩, ⟨50⟩, ⟨50⟩, ⟨50⟩] = 1 ∧
    adaptiveLevel [⟨65⟩, ⟨65⟩, ⟨65⟩, ⟨65⟩, ⟨65⟩] = 2 ∧
    generate_adaptive_quiz init_heap [] "physics" 2 [] =
      generate_quiz init_heap "General Assessment" 2 "physics" 2 [] := by
  refine ⟨?_, ?_, ?_,
    (adaptive_difficulty_selection init_heap "physics" 2 []).1 [] rfl⟩
  · exact ((adaptive_difficulty_selection init_heap "physics" 2 []).2
      [⟨90⟩, ⟨90⟩, ⟨90⟩, ⟨90⟩, ⟨90⟩] (List.cons_ne_nil _ _)).2.1.mpr
      (by norm_num [specRecentMean])
  · exact ((adaptive_difficulty_selection init_heap "physics" 2 []).2
      [⟨50⟩, ⟨50⟩, ⟨50⟩, ⟨50⟩, ⟨50⟩] (List.cons_ne_nil _ _)).2.2.2.1.mpr
      (by norm_num [specRecentMean])
  · exact ((adaptive_difficulty_selection init_heap "physics" 2 []).2
      [⟨65⟩, ⟨65⟩, ⟨65⟩, ⟨65⟩, ⟨65⟩] (List.cons_ne_nil _ _)).2.2.1.mpr
      (by norm_num [specRecentMean])

/-- C8: the diagnostic builder allocates `num div 3` units per tier plus
one extra for the first `num mod 3` tiers in the fixed order easy,
medium, hard; the per-tier counts differ pairwise by at most one and sum
to `num`; and on the initial bank (where every subject has every tier
non-empty) the returned quiz has length exactly `num`. -/
theorem diagnostic_allocation (num : Int) (pickS pickQ : Nat → Nat)
    (perm : List Nat) (h0 : 0 ≤ num) :
    (∀ i j : Nat, (tierAlloc num i - tierAlloc num j).natAbs ≤ 1) ∧
    tierAlloc num 0 + tierAlloc num 1 + tierAlloc num 2 = num ∧
    ((generate_diagnostic_quiz init_heap num pickS pickQ perm).1.length : Int) = num := by
  have hdiv : num.fdiv 3 = num / 3 := Int.fdiv_eq_ediv _ (by norm_num)
  have hmod : num.fmod 3 = num % 3 := Int.fmod_eq_emod _ (by norm_num)
  refine ⟨?_, ?_, ?_⟩
  · intro i j
    unfold tierAlloc
    rw [hdiv, hmod]
    split_ifs <;> omega
  · unfold tierAlloc
    rw [hdiv, hmod]
    split_ifs <;> omega
  · rw [generate_diagnostic_length num pickS pickQ perm]
    unfold tierAlloc
    rw [hdiv, hmod]
    split_ifs <;> omega

/-- Witness for C8 at a size-10 diagnostic request. -/
theorem diagnostic_allocation_witness :
    (0 : Int) ≤ 10 ∧
    ((generate_diagnostic_quiz init_heap 10 (fun n => n) (fun n => n) []).1.length : Int) = 10 :=
  ⟨by norm_num,
   (diagnostic_allocation 10 (fun n => n) (fun n => n) [] (by norm_num)).2.2⟩

/-- C9 counterexample: the claim's "if and only if" fails on the code.
This evaluation has an incorrect feedback record (so the claim demands a
"pay special attention" line), yet the produced recommendation list is
exactly the three generic remediation lines with no topic-specific line:
the incorrect record's topic label is the empty string, and the source's
`if most_challenging_topic:` truthiness guard drops the line. -/
theorem recommendations_empty_topic_counterexample :
    ({ question_id := 0, question := "q", your_answer := "x",
       correct_answer := "y", is_correct := false, explanation := "e",
       topic := "" } : FeedbackItem).is_correct = false ∧
    generate_recommendations 0
      [{ question_id := 0, question := "q", your_answer := "x",
         correct_answer := "y", is_correct := false, explanation := "e",
         topic := "" }] =
      ["Consider reviewing fundamental concepts.",
       "Practice more problems in areas where you struggled.",
       "Don\x27t hesitate to seek additional help or resources."] :=
  ⟨rfl, rfl⟩

/-- C9 (amended): the weak-topic dictionary equals the specification's
first-encounter-ordered incorrect counts; a topic-specific "pay special
attention" line is present if and only if some feedback record is
incorrect AND the winning topic label is non-empty (the code drops the
line when the champion label is the empty string); and any such line
names exactly the running-maximum champion: the earliest-encountered
topic whose incorrect count is strictly greater than every earlier
topic's and at least every later topic's. -/
theorem recommendations_attention_line (pct : ℚ) (feedback : List FeedbackItem) :
    weak_topics feedback = specCounts feedback ∧
    ((∃ t, attnLine t ∈ generate_recommendations pct feedback) ↔
      ((∃ fb ∈ feedback, fb.is_correct = false) ∧
        ((weak_topics feedback).foldl bestStep ("", 0)).1 ≠ "")) ∧
    (∀ t, attnLine t ∈ generate_recommendations pct feedback →
      t = ((weak_topics feedback).foldl bestStep ("", 0)).1 ∧
      ∃ c l₁ l₂, specCounts feedback = l₁ ++ (t, c) :: l₂ ∧
        (∀ p ∈ l₁, p.2 < c) ∧ (∀ p ∈ l₂, p.2 ≤ c)) := by
  have hwspec := weak_topics_eq_specCounts feedback
  have hrec := generate_recommendations_eq pct feedback
  have hincorr : weak_topics feedback ≠ [] ↔ ∃ fb ∈ feedback, fb.is_correct = false := by
    rw [Ne, weak_topics_nil_iff]
    push_neg
    constructor
    · rintro ⟨fb, hfb, hcor⟩
      exact ⟨fb, hfb, by simpa using hcor⟩
    · rintro ⟨fb, hfb, hcor⟩
      exact ⟨fb, hfb, by simp [hcor]⟩
  have hmem : ∀ t, attnLine t ∈ generate_recommendations pct feedback ↔
      ((weak_topics feedback ≠ [] ∧
        ((weak_topics feedback).foldl bestStep ("", 0)).1 ≠ "") ∧
        t = ((weak_topics feedback).foldl bestStep ("", 0)).1) := by
    intro t
    rw [hrec, List.mem_append]
    constructor
    · rintro (h | h)
      · exact absurd h (attnLine_not_mem_base t pct)
      · split at h
        · rename_i hcond
          rw [List.mem_singleton] at h
          exact ⟨hcond, attnLine_injective h⟩
        · simp at h
    · rintro ⟨hcond, rfl⟩
      rw [if_pos hcond]
      exact Or.inr (List.mem_singleton_self _)
  refine ⟨hwspec, ?_, ?_⟩
  · constructor
    · rintro ⟨t, ht⟩
      obtain ⟨⟨h1, h2⟩, -⟩ := (hmem t).mp ht
      exact ⟨hincorr.mp h1, h2⟩
    · rintro ⟨h1, h2⟩
      exact ⟨_, (hmem _).mpr ⟨⟨hincorr.mpr h1, h2⟩, rfl⟩⟩
  · intro t ht
    obtain ⟨⟨h1, h2⟩, rfl⟩ := (hmem t).mp ht
    refine ⟨rfl, ((weak_topics feedback).foldl bestStep ("", 0)).2, ?_⟩
    obtain ⟨l₁, l₂, hsplit, hlt, hle⟩ := foldl_bestStep_first_max
      (weak_topics feedback) (hwspec ▸ specCounts_pos feedback) h1
    exact ⟨l₁, l₂, hwspec.symm.trans hsplit, hlt, hle⟩

/-- Witness for C9 (amended): a single incorrect record with topic "T"
produces the attention line naming "T". -/
theorem recommendations_attention_line_witness :
    attnLine "T" ∈ generate_recommendations 0
      [{ question_id := 0, question := "q", your_answer := "x",
         correct_answer := "y", is_correct := false, explanation := "e",
         topic := "T" }] := by
  have h := (recommendations_attention_line 0
    [{ question_id := 0, question := "q", your_answer := "x",
       correct_answer := "y", is_correct := false, explanation := "e",
       topic := "T" }]).2.1.mpr
    ⟨⟨_, List.mem_singleton_self _, rfl⟩, by decide⟩
  obtain ⟨t, ht⟩ := h
  have := (recommendations_attention_line 0
    [{ question_id := 0, question := "q", your_answer := "x",
       correct_answer := "y", is_correct := false, explanation := "e",
       topic := "T" }]).2.2 t ht
  rw [show t = "T" by rw [this.1]; rfl] at ht
  exact ht

/-- C10: when the normalized subject key is not a bank key (and the
subject is not the "general" sentinel), `generate_quiz` draws only from
the mathematics pool of the mapped tier and never extends it with
fallback tiers, so the returned quiz is no longer than that single
pool even when far more questions are requested. -/
theorem unknown_subject_uses_mathematics_tier (heap : Heap) (topic : String)
    (lvl : Int) (subject : String) (num : Int) (perm : List Nat)
    (qs : List Addr) (h' : Heap)
    (hgen : subject ≠ "general")
    (hkey : dictGet question_banks (normalizeKey subject) = none)
    (hok : generate_quiz heap topic lvl subject num perm = Except.ok (qs, h')) :
    (∀ a ∈ qs, a ∈ (bankLookup "mathematics" (difficultyOf lvl)).getD []) ∧
    qs.length ≤ ((bankLookup "mathematics" (difficultyOf lvl)).getD []).length := by
  have hres : resolveSubject topic subject = subject := by
    rw [resolveSubject, if_neg (by simpa using hgen)]
  obtain ⟨hs, -⟩ := generate_quiz_shape heap topic lvl subject num perm hok
  rw [hres, availablePool_unknown_subject (difficultyOf lvl) num hkey] at hs
  obtain ⟨hlen, hmem, -, -, hkle⟩ := random_sample_spec hs
  refine ⟨hmem, ?_⟩
  have h1 : min num (((bankLookup "mathematics" (difficultyOf lvl)).getD []).length : Int) ≤
      (((bankLookup "mathematics" (difficultyOf lvl)).getD []).length : Int) :=
    min_le_right _ _
  omega

/-- Witness for C10: subject "chemistry" with 10 requested questions at
level 2 returns only the 3 mathematics/medium questions. -/
theorem unknown_subject_uses_mathematics_tier_witness :
    ("chemistry" ≠ "general") ∧
    dictGet question_banks (normalizeKey "chemistry") = none ∧
    (∀ a ∈ ([4, 5, 6] : List Addr),
      a ∈ (bankLookup "mathematics" (difficultyOf 2)).getD []) ∧
    ([4, 5, 6] : List Addr).length ≤
      ((bankLookup "mathematics" (difficultyOf 2)).getD []).length := by
  have h := unknown_subject_uses_mathematics_tier init_heap "chemistry topic" 2
    "chemistry" 10 [] [4, 5, 6]
    (stampQuiz init_heap [4, 5, 6] "chemistry topic" "medium" "chemistry")
    (by decide) rfl rfl
  exact ⟨by decide, rfl, h.1, h.2⟩

end EduTutor
